import Mathlib

/-!
Shallow embedding of the `etag` module (src/index.js): HTTP entity-tag
generation from a string, a binary buffer, or an `fs.Stats`-like metadata
descriptor.  The JavaScript functions `entitytag`, `etag`, `isstats` and
`stattag` are translated definition-by-definition; the SHA-1 digest,
base64 encoding, UTF-8 encoding and JavaScript `Number.prototype.toString(16)`
rendering used by the code are modelled executably over `Nat`/`Int`.
-/

namespace Etag

/-! ### JavaScript number rendering: `n.toString(16)` -/

/-- Lowercase hex digit character, as produced by JS `toString(16)`:
`0`–`9` then `a`–`f`. -/
def hexDigitChar (n : Nat) : Char :=
  if n < 10 then Char.ofNat (48 + n) else Char.ofNat (87 + n)

/-- Hex digits of `n`, most significant first, by fuel-bounded division;
any `fuel > n` is enough, since `n` has at most `n + 1` hex digits. -/
def natToHexAux (fuel n : Nat) : List Char :=
  match fuel with
  | 0 => []
  | fuel + 1 =>
      if n < 16 then [hexDigitChar n]
      else natToHexAux fuel (n / 16) ++ [hexDigitChar (n % 16)]

/-- Hex digit list of a natural number, most significant digit first.
`natToHexCore 0 = ['0']`. -/
def natToHexCore (n : Nat) : List Char :=
  natToHexAux (n + 1) n

/-- JS `n.toString(16)` for a non-negative integer. -/
def natToString16 (n : Nat) : String :=
  ⟨natToHexCore n⟩

/-- JS `n.toString(16)` for an integer: negative values render with a
leading minus sign, e.g. `(-255).toString(16) = "-ff"`. -/
def intToString16 (i : Int) : String :=
  if i < 0 then "-" ++ natToString16 i.natAbs else natToString16 i.natAbs

/-- Hex digits of the fractional value `r / 2^e` (with `r < 2^e`), most
significant first: each step emits `⌊16r / 2^e⌋` and continues with the
remainder.  The expansion terminates — after `⌈e/4⌉` steps the remainder
is divisible by `2^e` — so any `fuel > e / 4` computes it in full. -/
def fracHexAux (fuel : Nat) (r e : Nat) : List Char :=
  match fuel with
  | 0 => []
  | fuel + 1 =>
      if r = 0 then []
      else hexDigitChar (r * 16 / 2 ^ e) :: fracHexAux fuel (r * 16 % 2 ^ e) e

/-- JS `toString(16)` of the non-negative dyadic value `m / 2^e`:
integer part in hex, then, when the fractional part is non-zero, `.`
followed by its exact (terminating) hex expansion. -/
def dyadicNatToString16 (m e : Nat) : String :=
  natToString16 (m / 2 ^ e) ++
    (if m % 2 ^ e = 0 then ""
     else "." ++ String.mk (fracHexAux (e + 1) (m % 2 ^ e) e))

/-- JS `toString(16)` of the dyadic value `m / 2^e`.  Every JavaScript
number is an IEEE-754 double, hence exactly such a dyadic rational, and
its base-16 expansion terminates; e.g. `(2.5).toString(16) = "2.8"` and
`(-2.5).toString(16) = "-2.8"`.  (V8 additionally stops a full-precision
tail at half an ulp; for values printed in full — all the values the
claims instantiate — that coincides with the exact expansion.) -/
def dyadicToString16 (m : Int) (e : Nat) : String :=
  if m < 0 then "-" ++ dyadicNatToString16 m.natAbs e
  else dyadicNatToString16 m.natAbs e

/-! ### UTF-8 and UTF-16 views of a string

`crypto.update(entity, "utf8")` and `Buffer.byteLength(entity, "utf8")`
act on the UTF-8 encoding of a JS string; `entity.length` is its UTF-16
code-unit count. -/

/-- UTF-8 encoding of a single Unicode scalar value. -/
def utf8EncodeChar (c : Char) : List Nat :=
  if c.toNat < 128 then [c.toNat]
  else if c.toNat < 2048 then
    [192 + c.toNat / 64, 128 + c.toNat % 64]
  else if c.toNat < 65536 then
    [224 + c.toNat / 4096, 128 + c.toNat / 64 % 64, 128 + c.toNat % 64]
  else
    [240 + c.toNat / 262144, 128 + c.toNat / 4096 % 64,
     128 + c.toNat / 64 % 64, 128 + c.toNat % 64]

/-- The UTF-8 byte sequence of a string (`Buffer.byteLength(s, "utf8")`
is its length; the SHA-1 in `entitytag` hashes exactly these bytes). -/
def utf8Bytes (s : String) : List Nat :=
  (s.data.map utf8EncodeChar).flatten

/-- JS `s.length`: the number of UTF-16 code units (characters above
`U+FFFF` count twice). -/
def utf16Len (s : String) : Nat :=
  (s.data.map (fun c => if c.toNat < 65536 then 1 else 2)).sum

/-! ### SHA-1 (FIPS 180-4), bytes in, 20 bytes out -/

/-- `2^32`, the word modulus of SHA-1 arithmetic. -/
def w32 : Nat := 4294967296

/-- Left-rotation of a 32-bit word. -/
def rotl32 (x n : Nat) : Nat :=
  ((x <<< n) ||| (x >>> (32 - n))) % w32

/-- SHA-1 round function `f_t(b,c,d)`. -/
def sha1F (t b c d : Nat) : Nat :=
  if t < 20 then (b &&& c) ||| ((b ^^^ 4294967295) &&& d)
  else if t < 40 then b ^^^ c ^^^ d
  else if t < 60 then (b &&& c) ||| (b &&& d) ||| (c &&& d)
  else b ^^^ c ^^^ d

/-- SHA-1 round constant `K_t`. -/
def sha1K (t : Nat) : Nat :=
  if t < 20 then 1518500249
  else if t < 40 then 1859775393
  else if t < 60 then 2400959708
  else 3395469782

/-- SHA-1 padding: append `0x80`, zero bytes to 56 mod 64, then the
bit length as an 8-byte big-endian integer. -/
def sha1Pad (msg : List Nat) : List Nat :=
  msg ++ [128] ++ List.replicate ((119 - msg.length % 64) % 64) 0 ++
    (List.range 8).map (fun i => ((8 * msg.length) >>> (8 * (7 - i))) % 256)

/-- Split a byte list into 64-byte blocks (the `i`-th block is bytes
`64*i` to `64*i + 63`; SHA-1 padding makes the length a multiple of 64). -/
def chunks64 (l : List Nat) : List (List Nat) :=
  (List.range ((l.length + 63) / 64)).map (fun i => (l.drop (64 * i)).take 64)

/-- Big-endian 32-bit words of a byte list. -/
def wordsBE : List Nat → List Nat
  | b0 :: b1 :: b2 :: b3 :: rest =>
      (b0 * 16777216 + b1 * 65536 + b2 * 256 + b3) :: wordsBE rest
  | _ => []

/-- Extend the 16 message words to the 80-word SHA-1 schedule. -/
def sha1Extend (w : List Nat) : List Nat :=
  (List.range 64).foldl
    (fun acc t =>
      acc ++ [rotl32 (acc.getD (t + 13) 0 ^^^ acc.getD (t + 8) 0 ^^^
                      acc.getD (t + 2) 0 ^^^ acc.getD t 0) 1])
    w

/-- One SHA-1 round on the five-word state. -/
def sha1Round (w : List Nat) (st : Nat × Nat × Nat × Nat × Nat) (t : Nat) :
    Nat × Nat × Nat × Nat × Nat :=
  match st with
  | (a, b, c, d, e) =>
      ((rotl32 a 5 + sha1F t b c d + e + sha1K t + w.getD t 0) % w32,
       a, rotl32 b 30, c, d)

/-- Compress one 64-byte block into the running state. -/
def sha1Block (h : Nat × Nat × Nat × Nat × Nat) (chunk : List Nat) :
    Nat × Nat × Nat × Nat × Nat :=
  match h, (List.range 80).foldl (sha1Round (sha1Extend (wordsBE chunk))) h with
  | (h0, h1, h2, h3, h4), (a, b, c, d, e) =>
      ((h0 + a) % w32, (h1 + b) % w32, (h2 + c) % w32,
       (h3 + d) % w32, (h4 + e) % w32)

/-- Big-endian bytes of a 32-bit word. -/
def word2bytesBE (x : Nat) : List Nat :=
  [x / 16777216 % 256, x / 65536 % 256, x / 256 % 256, x % 256]

/-- SHA-1 digest: 20 bytes. -/
def sha1 (msg : List Nat) : List Nat :=
  match (chunks64 (sha1Pad msg)).foldl sha1Block
      (1732584193, 4023233417, 2562383102, 271733878, 3285377520) with
  | (h0, h1, h2, h3, h4) =>
      word2bytesBE h0 ++ word2bytesBE h1 ++ word2bytesBE h2 ++
      word2bytesBE h3 ++ word2bytesBE h4

/-! ### Base64 -/

/-- The 64-character base64 alphabet. -/
def b64Alphabet : List Char :=
  ['A','B','C','D','E','F','G','H','I','J','K','L','M',
   'N','O','P','Q','R','S','T','U','V','W','X','Y','Z',
   'a','b','c','d','e','f','g','h','i','j','k','l','m',
   'n','o','p','q','r','s','t','u','v','w','x','y','z',
   '0','1','2','3','4','5','6','7','8','9','+','/']

/-- The base64 character for a 6-bit value. -/
def b64Char (n : Nat) : Char :=
  b64Alphabet.getD n 'A'

/-- Standard base64 encoding with `=` padding, as produced by Node's
`digest("base64")`. -/
def base64Encode : List Nat → List Char
  | b0 :: b1 :: b2 :: rest =>
      b64Char (b0 / 4) :: b64Char (b0 % 4 * 16 + b1 / 16) ::
      b64Char (b1 % 16 * 4 + b2 / 64) :: b64Char (b2 % 64) ::
      base64Encode rest
  | [b0, b1] =>
      [b64Char (b0 / 4), b64Char (b0 % 4 * 16 + b1 / 16),
       b64Char (b1 % 16 * 4), '=']
  | [b0] =>
      [b64Char (b0 / 4), b64Char (b0 % 4 * 16), '=', '=']
  | [] => []

/-- `crypto.createHash("sha1").update(bytes).digest("base64").substring(0, 27)`. -/
def sha1Base64Trunc (bytes : List Nat) : String :=
  ⟨(base64Encode (sha1 bytes)).take 27⟩

/-! ### The JavaScript value model

Only the shapes `etag` distinguishes are modelled: `null`/`undefined`
(one case, since the code tests `entity == null`), strings, `Buffer`s
(byte lists), plain numbers (an unsupported shape, e.g. `etag(42)`),
genuine `fs.Stats` instances, and plain objects whose four stat-like
fields `isstats` duck-types. -/

/-- What `isstats` observes of one object property: a `Date` (carrying
`getTime()` in milliseconds — ECMA-262 time values are integral), a
number, another value, or (via `Option.none` at the use site) an absent
property.  A JS number is an IEEE-754 double, i.e. an exact dyadic
rational: `num n` models an integral-valued number and `frac m e` the
general value `m / 2^e` (with `e = 0` the two renderings agree, see
`dyadicToString16_exp_zero`); both satisfy `typeof x === "number"`. -/
inductive JsField where
  | date (ms : Int)
  | num (n : Int)
  | frac (m : Int) (e : Nat)
  | other
deriving DecidableEq

/-- A plain JS object, seen through the four properties `isstats` probes;
`none` means the property is absent. -/
structure DuckObject where
  ctime : Option JsField
  mtime : Option JsField
  ino : Option JsField
  size : Option JsField
deriving DecidableEq

/-- A genuine `fs.Stats` instance: `instanceof Stats` holds and the four
fields have their native types (`mtimeMs = mtime.getTime()`). -/
structure NativeStats where
  ctimeMs : Int
  mtimeMs : Int
  ino : Int
  size : Int
deriving DecidableEq

/-- A JavaScript value in the shapes relevant to `etag`. -/
inductive JsValue where
  | vNull
  | vStr (s : String)
  | vBuf (bytes : List Nat)
  | vNum (n : Int)
  | vStat (st : NativeStats)
  | vObj (o : DuckObject)
deriving DecidableEq

/-- `toString.call(x) === "[object Date]"` on a (possibly absent) property. -/
def isDateField : Option JsField → Bool
  | some (.date _) => true
  | _ => false

/-- `typeof x === "number"` on a (possibly absent) property: true for
integral and fractional number values alike. -/
def isNumField : Option JsField → Bool
  | some (.num _) => true
  | some (.frac _ _) => true
  | _ => false

/-- `typeof entity === "string"`. -/
def isStringEntity : JsValue → Bool
  | .vStr _ => true
  | _ => false

/-- `Buffer.isBuffer(entity)`. -/
def isBufferEntity : JsValue → Bool
  | .vBuf _ => true
  | _ => false

/-- src/index.js `isstats(obj)`: a genuine `fs.Stats`, or a plain object
exposing a `Date`-valued `ctime`, a `Date`-valued `mtime`, a numeric
`ino` and a numeric `size` (the "quack quack" shape test). -/
def isstats : JsValue → Bool
  | .vStat _ => true
  | .vObj o =>
      isDateField o.ctime && isDateField o.mtime &&
      isNumField o.ino && isNumField o.size
  | _ => false

/-- src/index.js `stattag(stat)`:
`'"' + size.toString(16) + "-" + mtime.getTime().toString(16) + '"'`.
`none` on values `etag` never passes to it (non-stat shapes, whose
`mtime.getTime()` call would fail in JS). -/
def stattag : JsValue → Option String
  | .vStat st =>
      some ("\"" ++ intToString16 st.size ++ "-" ++ intToString16 st.mtimeMs ++ "\"")
  | .vObj o =>
      match o.size, o.mtime with
      | some (.num sz), some (.date ms) =>
          some ("\"" ++ intToString16 sz ++ "-" ++ intToString16 ms ++ "\"")
      | some (.frac m e), some (.date ms) =>
          some ("\"" ++ dyadicToString16 m e ++ "-" ++ intToString16 ms ++ "\"")
      | _, _ => none
  | _ => none

/-- The precomputed fast-path tag the code returns for empty content. -/
def emptyTag : String := "\"0-2jmj7l5rSw0yVb/vlWAYkK/YBwk\""

/-- src/index.js `entitytag(entity)`: the fast path returns `emptyTag`
when `entity.length === 0`; otherwise the tag is the hex byte length,
`-`, and the first 27 base64 characters of the SHA-1 digest (a string is
hashed and measured as UTF-8 bytes, a buffer as its own bytes).  `none`
on non-content shapes, which `etag` never passes to it. -/
def entitytag : JsValue → Option String
  | .vStr s =>
      if utf16Len s = 0 then some emptyTag
      else some ("\"" ++ natToString16 (utf8Bytes s).length ++ "-" ++
                 sha1Base64Trunc (utf8Bytes s) ++ "\"")
  | .vBuf b =>
      if b.length = 0 then some emptyTag
      else some ("\"" ++ natToString16 b.length ++ "-" ++
                 sha1Base64Trunc b ++ "\"")
  | _ => none

/-- The `weak` option as received: a genuine boolean, a value of another
type, or no `weak` property at all. -/
inductive WeakField where
  | boolean (b : Bool)
  | nonBoolean
  | absent
deriving DecidableEq

/-- The options object; `etag`'s second parameter is `Option EtagOptions`,
`none` standing for an absent or falsy `options`. -/
structure EtagOptions where
  weak : WeakField
deriving DecidableEq

/-- src/index.js line 99–100:
`options && typeof options.weak === "boolean" ? options.weak : isStats`. -/
def resolveWeak (options : Option EtagOptions) (isStats : Bool) : Bool :=
  match options with
  | some o =>
      match o.weak with
      | .boolean b => b
      | _ => isStats
  | none => isStats

/-- The two `TypeError`s `etag` can throw, by message. -/
inductive EtagError where
  /-- "argument entity is required" -/
  | entityRequired
  /-- "argument entity must be string, Buffer, or fs.Stats" -/
  | entityMustBe
deriving DecidableEq

/-- src/index.js `etag(entity, options)`: throw if `entity == null`;
resolve the weak flag; throw unless the entity is a stat, string or
buffer; tag via `stattag` or `entitytag`; prepend `W/` when weak.
The `none` arm of the inner match is unreachable (see `coreTag_shape`):
a stat-shaped entity always has a `stattag`, and a string or buffer
always has an `entitytag`. -/
def etag (entity : JsValue) (options : Option EtagOptions) :
    Except EtagError String :=
  if entity = .vNull then .error .entityRequired
  else if !isstats entity && !isStringEntity entity && !isBufferEntity entity then
    .error .entityMustBe
  else
    match (if isstats entity then stattag entity else entitytag entity) with
    | some tag =>
        .ok (if resolveWeak options (isstats entity) then "W/" ++ tag else tag)
    | none => .error .entityMustBe

/-- The shape condition under which `etag` does not throw on a non-null
entity: the negation of the validation test on src/index.js line 107. -/
def validShape (e : JsValue) : Bool :=
  isstats e || isStringEntity e || isBufferEntity e

/-- A string with no `"` character, the property that makes the naive
quote-wrapping in the tag formatters safe. -/
def NoQuote (s : String) : Prop := ∀ c ∈ s.data, c ≠ '"'

instance (s : String) : Decidable (NoQuote s) :=
  List.decidableBAll (fun c => c ≠ '"') s.data

/-- Modelled from the spec: the general content-path body,
`hexadecimal(byte-length) + "-" + first 27 base64 characters of the
SHA-1 digest`, stated independently of the fast path so the empty-content
constant can be compared against it. -/
def generalContentBody (bytes : List Nat) : String :=
  natToString16 bytes.length ++ "-" ++ String.mk ((base64Encode (sha1 bytes)).take 27)

/-!
### Helper lemmas
-/

theorem hexDigitChar_ne_quote {n : Nat} (h : n < 16) : hexDigitChar n ≠ '"' := by
  interval_cases n <;> decide

theorem natToHexAux_ne_quote (fuel : Nat) :
    ∀ (n : Nat), ∀ c ∈ natToHexAux fuel n, c ≠ '"' := by
  induction fuel with
  | zero =>
      intro n c hc
      simp [natToHexAux] at hc
  | succ fuel ih =>
      intro n c hc
      simp only [natToHexAux] at hc
      by_cases h : n < 16
      · rw [if_pos h, List.mem_singleton] at hc
        subst hc
        exact hexDigitChar_ne_quote h
      · rw [if_neg h, List.mem_append, List.mem_singleton] at hc
        rcases hc with hc | hc
        · exact ih _ c hc
        · subst hc
          exact hexDigitChar_ne_quote (Nat.mod_lt _ (by omega))

theorem natToHexCore_ne_quote (n : Nat) : ∀ c ∈ natToHexCore n, c ≠ '"' :=
  natToHexAux_ne_quote (n + 1) n

theorem natToString16_noQuote (n : Nat) : NoQuote (natToString16 n) :=
  natToHexCore_ne_quote n

theorem noQuote_append {a b : String} (ha : NoQuote a) (hb : NoQuote b) :
    NoQuote (a ++ b) := by
  intro c hc
  rw [String.data_append, List.mem_append] at hc
  rcases hc with hc | hc
  · exact ha c hc
  · exact hb c hc

theorem intToString16_noQuote (i : Int) : NoQuote (intToString16 i) := by
  unfold intToString16
  split
  · exact noQuote_append (by decide) (natToString16_noQuote _)
  · exact natToString16_noQuote _

theorem fracHexAux_ne_quote (fuel : Nat) :
    ∀ (r e : Nat), r < 2 ^ e → ∀ c ∈ fracHexAux fuel r e, c ≠ '"' := by
  induction fuel with
  | zero =>
      intro r e _ c hc
      simp [fracHexAux] at hc
  | succ fuel ih =>
      intro r e hr c hc
      simp only [fracHexAux] at hc
      by_cases h0 : r = 0
      · rw [if_pos h0] at hc
        simp at hc
      · rw [if_neg h0, List.mem_cons] at hc
        rcases hc with rfl | hc
        · refine hexDigitChar_ne_quote ?_
          have h2 : 0 < 2 ^ e := Nat.pos_pow_of_pos e (by omega)
          rw [Nat.div_lt_iff_lt_mul h2]
          omega
        · exact ih _ _ (Nat.mod_lt _ (Nat.pos_pow_of_pos e (by omega))) c hc

theorem dyadicNatToString16_noQuote (m e : Nat) :
    NoQuote (dyadicNatToString16 m e) := by
  unfold dyadicNatToString16
  refine noQuote_append (natToString16_noQuote _) ?_
  by_cases h : m % 2 ^ e = 0
  · rw [if_pos h]
    decide
  · rw [if_neg h]
    refine noQuote_append (by decide) ?_
    intro c hc
    exact fracHexAux_ne_quote (e + 1) _ e
      (Nat.mod_lt _ (Nat.pos_pow_of_pos e (by omega))) c hc

theorem dyadicToString16_noQuote (m : Int) (e : Nat) :
    NoQuote (dyadicToString16 m e) := by
  unfold dyadicToString16
  split
  · exact noQuote_append (by decide) (dyadicNatToString16_noQuote _ _)
  · exact dyadicNatToString16_noQuote _ _

theorem dyadicToString16_exp_zero (m : Int) :
    dyadicToString16 m 0 = intToString16 m := by
  unfold dyadicToString16 intToString16 dyadicNatToString16
  simp [Nat.mod_one, String.append_empty]

theorem b64Char_ne_quote (n : Nat) : b64Char n ≠ '"' := by
  unfold b64Char
  rcases Nat.lt_or_ge n 64 with h | h
  · unfold b64Alphabet
    interval_cases n <;> decide
  · rw [List.getD_eq_default]
    · decide
    · simpa [b64Alphabet] using h

theorem base64Encode_ne_quote : ∀ (l : List Nat), ∀ c ∈ base64Encode l, c ≠ '"'
  | b0 :: b1 :: b2 :: rest => by
      intro c hc
      simp only [base64Encode, List.mem_cons] at hc
      rcases hc with rfl | rfl | rfl | rfl | hc
      · exact b64Char_ne_quote _
      · exact b64Char_ne_quote _
      · exact b64Char_ne_quote _
      · exact b64Char_ne_quote _
      · exact base64Encode_ne_quote rest c hc
  | [b0, b1] => by
      intro c hc
      simp only [base64Encode, List.mem_cons, List.not_mem_nil, or_false] at hc
      rcases hc with rfl | rfl | rfl | rfl
      · exact b64Char_ne_quote _
      · exact b64Char_ne_quote _
      · exact b64Char_ne_quote _
      · decide
  | [b0] => by
      intro c hc
      simp only [base64Encode, List.mem_cons, List.not_mem_nil, or_false] at hc
      rcases hc with rfl | rfl | rfl | rfl
      · exact b64Char_ne_quote _
      · exact b64Char_ne_quote _
      · decide
      · decide
  | [] => by
      intro c hc
      simp [base64Encode] at hc

theorem sha1Base64Trunc_noQuote (bytes : List Nat) : NoQuote (sha1Base64Trunc bytes) := by
  intro c hc
  exact base64Encode_ne_quote (sha1 bytes) c (List.take_subset 27 _ hc)

theorem isDateField_iff (f : Option JsField) :
    isDateField f = true ↔ ∃ ms, f = some (.date ms) := by
  rcases f with _ | f
  · simp [isDateField]
  · cases f <;> simp [isDateField]

theorem isNumField_iff (f : Option JsField) :
    isNumField f = true ↔
      (∃ n, f = some (.num n)) ∨ (∃ m e, f = some (.frac m e)) := by
  rcases f with _ | f
  · simp [isNumField]
  · cases f <;> simp [isNumField]

theorem isstats_obj (o : DuckObject) (h : isstats (.vObj o) = true) :
    ∃ (ct ms : Int) (ino sz : JsField),
      o = ⟨some (.date ct), some (.date ms), some ino, some sz⟩ ∧
      ((∃ n, sz = .num n) ∨ (∃ m e, sz = .frac m e)) := by
  simp only [isstats, Bool.and_eq_true] at h
  obtain ⟨⟨⟨hc, hm⟩, hi⟩, hs⟩ := h
  obtain ⟨ct, hc⟩ := (isDateField_iff _).mp hc
  obtain ⟨ms, hm⟩ := (isDateField_iff _).mp hm
  have hi' := (isNumField_iff _).mp hi
  have hs' := (isNumField_iff _).mp hs
  rcases hs' with ⟨sz, hsz⟩ | ⟨szm, sze, hsz⟩ <;>
    rcases hi' with ⟨ino, hino⟩ | ⟨inom, inoe, hino⟩
  · exact ⟨ct, ms, .num ino, .num sz, by cases o; simp_all, Or.inl ⟨sz, rfl⟩⟩
  · exact ⟨ct, ms, .frac inom inoe, .num sz, by cases o; simp_all, Or.inl ⟨sz, rfl⟩⟩
  · exact ⟨ct, ms, .num ino, .frac szm sze, by cases o; simp_all, Or.inr ⟨szm, sze, rfl⟩⟩
  · exact ⟨ct, ms, .frac inom inoe, .frac szm sze, by cases o; simp_all,
      Or.inr ⟨szm, sze, rfl⟩⟩

theorem stattag_of_isstats (e : JsValue) (h : isstats e = true) :
    ∃ (szs : String) (ms : Int),
      stattag e = some ("\"" ++ szs ++ "-" ++ intToString16 ms ++ "\"") ∧
      NoQuote szs := by
  cases e with
  | vStat st => exact ⟨intToString16 st.size, st.mtimeMs, rfl, intToString16_noQuote _⟩
  | vObj o =>
      obtain ⟨ct, ms, ino, sz, rfl, hsz⟩ := isstats_obj o h
      rcases hsz with ⟨n, rfl⟩ | ⟨m, ex, rfl⟩
      · exact ⟨intToString16 n, ms, rfl, intToString16_noQuote _⟩
      · exact ⟨dyadicToString16 m ex, ms, rfl, dyadicToString16_noQuote m ex⟩
  | vNull => simp [isstats] at h
  | vStr s => simp [isstats] at h
  | vBuf b => simp [isstats] at h
  | vNum n => simp [isstats] at h

theorem coreTag_shape (e : JsValue) (h : validShape e = true) :
    ∃ body, (if isstats e then stattag e else entitytag e) = some ("\"" ++ body ++ "\"") ∧
      NoQuote body := by
  by_cases hs : isstats e = true
  · rw [if_pos hs]
    obtain ⟨szs, ms, hst, hnq⟩ := stattag_of_isstats e hs
    refine ⟨szs ++ "-" ++ intToString16 ms, ?_, ?_⟩
    · rw [hst]
      simp [String.append_assoc]
    · exact noQuote_append (noQuote_append hnq (by decide))
        (intToString16_noQuote _)
  · rw [if_neg hs]
    cases e with
    | vStr s =>
        by_cases h0 : utf16Len s = 0
        · refine ⟨"0-2jmj7l5rSw0yVb/vlWAYkK/YBwk", ?_, by decide⟩
          simp [entitytag, h0, emptyTag]
        · refine ⟨natToString16 (utf8Bytes s).length ++ "-" ++ sha1Base64Trunc (utf8Bytes s), ?_, ?_⟩
          · simp [entitytag, h0, String.append_assoc]
          · exact noQuote_append (noQuote_append (natToString16_noQuote _) (by decide))
              (sha1Base64Trunc_noQuote _)
    | vBuf b =>
        by_cases h0 : b.length = 0
        · refine ⟨"0-2jmj7l5rSw0yVb/vlWAYkK/YBwk", ?_, by decide⟩
          simp [entitytag, h0, emptyTag]
        · refine ⟨natToString16 b.length ++ "-" ++ sha1Base64Trunc b, ?_, ?_⟩
          · simp [entitytag, h0, String.append_assoc]
          · exact noQuote_append (noQuote_append (natToString16_noQuote _) (by decide))
              (sha1Base64Trunc_noQuote _)
    | vNull => simp [validShape, isstats, isStringEntity, isBufferEntity] at h
    | vNum n => simp [validShape, isstats, isStringEntity, isBufferEntity] at h
    | vStat st => simp [isstats] at hs
    | vObj o => simp_all [validShape, isStringEntity, isBufferEntity]

theorem validShape_of_some (e : JsValue) (core : String)
    (h : (if isstats e then stattag e else entitytag e) = some core) :
    validShape e = true := by
  by_cases hs : isstats e = true
  · simp [validShape, hs]
  · rw [if_neg hs] at h
    cases e <;> simp_all [entitytag, validShape, isStringEntity, isBufferEntity, isstats]

theorem etag_ok (e : JsValue) (opts : Option EtagOptions) (core : String)
    (h0 : e ≠ .vNull)
    (h : (if isstats e then stattag e else entitytag e) = some core) :
    etag e opts = .ok (if resolveWeak opts (isstats e) then "W/" ++ core else core) := by
  have hv := validShape_of_some e core h
  have hcond : ¬((!isstats e && !isStringEntity e && !isBufferEntity e) = true) := by
    cases hA : isstats e <;> cases hB : isStringEntity e <;> cases hC : isBufferEntity e <;>
      simp_all [validShape]
  unfold etag
  rw [if_neg h0, if_neg hcond, h]

theorem etag_ok_inv (e : JsValue) (opts : Option EtagOptions) (tag : String)
    (h : etag e opts = .ok tag) :
    e ≠ .vNull ∧ ∃ core,
      (if isstats e then stattag e else entitytag e) = some core ∧
      tag = (if resolveWeak opts (isstats e) then "W/" ++ core else core) := by
  unfold etag at h
  by_cases h0 : e = .vNull
  · rw [if_pos h0] at h
    simp at h
  · rw [if_neg h0] at h
    by_cases h1 : (!isstats e && !isStringEntity e && !isBufferEntity e) = true
    · rw [if_pos h1] at h
      simp at h
    · rw [if_neg h1] at h
      refine ⟨h0, ?_⟩
      cases hc : (if isstats e then stattag e else entitytag e) with
      | none => rw [hc] at h; simp at h
      | some core =>
          rw [hc] at h
          simp only [Except.ok.injEq] at h
          exact ⟨core, rfl, h.symm⟩

/-!
### Claim theorems
-/

theorem utf8EncodeChar_ne_nil (c : Char) : utf8EncodeChar c ≠ [] := by
  unfold utf8EncodeChar
  split_ifs <;> simp

theorem utf8Bytes_length_eq_zero_iff (s : String) :
    (utf8Bytes s).length = 0 ↔ utf16Len s = 0 := by
  cases hs : s.data with
  | nil => simp [utf8Bytes, utf16Len, hs]
  | cons c rest =>
      have h1 : 0 < (utf8EncodeChar c).length :=
        List.length_pos.mpr (utf8EncodeChar_ne_nil c)
      apply iff_of_false
      · simp only [utf8Bytes, hs, List.map_cons, List.flatten_cons, List.length_append]
        omega
      · simp only [utf16Len, hs, List.map_cons, List.sum_cons]
        split_ifs <;> omega

/-- C1: for every non-empty content entity (string or buffer), `etag`
produces a body equal to the hex rendering of the content byte length,
then `-`, then the first 27 characters of the base64 encoding of the
SHA-1 digest of the content bytes (strings taken as UTF-8 bytes); the
11-byte string "hello world" yields the strong tag with body
`b-Kq5sNclPz7QV2+lfQIuc6R7oRu0`. -/
theorem c1_content_general_path :
    (∀ s : String, utf16Len s ≠ 0 →
      etag (.vStr s) none =
        .ok ("\"" ++ natToString16 (utf8Bytes s).length ++ "-" ++
             String.mk ((base64Encode (sha1 (utf8Bytes s))).take 27) ++ "\"")) ∧
    (∀ b : List Nat, b ≠ [] →
      etag (.vBuf b) none =
        .ok ("\"" ++ natToString16 b.length ++ "-" ++
             String.mk ((base64Encode (sha1 b)).take 27) ++ "\"")) ∧
    etag (.vStr "hello world") none = .ok "\"b-Kq5sNclPz7QV2+lfQIuc6R7oRu0\"" := by
  refine ⟨?_, ?_, ?_⟩
  · intro s h
    simp [etag, isstats, isStringEntity, isBufferEntity, entitytag, h, resolveWeak,
          sha1Base64Trunc]
  · intro b h
    have hl : ¬b.length = 0 := by simpa [List.length_eq_zero] using h
    simp [etag, isstats, isStringEntity, isBufferEntity, entitytag, hl, resolveWeak,
          sha1Base64Trunc]
  · set_option maxRecDepth 20000 in rfl

/-- Witness for C1 at the concrete input "hello world". -/
theorem c1_content_general_path_witness :
    utf16Len "hello world" ≠ 0 ∧
    etag (.vStr "hello world") none =
      .ok ("\"" ++ natToString16 (utf8Bytes "hello world").length ++ "-" ++
           String.mk ((base64Encode (sha1 (utf8Bytes "hello world"))).take 27) ++ "\"") :=
  ⟨by decide, c1_content_general_path.1 "hello world" (by decide)⟩

/-- C2: for a metadata descriptor (duck-typed object or genuine
`fs.Stats`), the tag body is `hex(size) + "-" + hex(mtime ms)` and
depends on no other field: two descriptors identical in `size`/`mtime`
but differing in `ino` and `ctime` give identical results. -/
theorem c2_stattag_only_size_mtime :
    ∀ (sz ms ct1 ct2 i1 i2 : Int) (opts : Option EtagOptions),
      stattag (.vObj ⟨some (.date ct1), some (.date ms), some (.num i1), some (.num sz)⟩) =
        some ("\"" ++ intToString16 sz ++ "-" ++ intToString16 ms ++ "\"") ∧
      stattag (.vStat ⟨ct1, ms, i1, sz⟩) =
        some ("\"" ++ intToString16 sz ++ "-" ++ intToString16 ms ++ "\"") ∧
      etag (.vObj ⟨some (.date ct1), some (.date ms), some (.num i1), some (.num sz)⟩) opts =
        etag (.vObj ⟨some (.date ct2), some (.date ms), some (.num i2), some (.num sz)⟩) opts := by
  intro sz ms ct1 ct2 i1 i2 opts
  exact ⟨rfl, rfl, rfl⟩

/-- C3: `etag` throws if and only if the entity is null/undefined or is
neither a string, nor a buffer, nor stat-shaped; the null case throws
"argument entity is required", the shape case throws "argument entity
must be string, Buffer, or fs.Stats", and the two errors are distinct.
All other inputs succeed (the backward direction of the iff). -/
theorem c3_invalid_argument :
    ∀ (e : JsValue) (opts : Option EtagOptions),
      ((∃ err, etag e opts = .error err) ↔ (e = .vNull ∨ validShape e = false)) ∧
      (e = .vNull → etag e opts = .error .entityRequired) ∧
      (e ≠ .vNull → validShape e = false → etag e opts = .error .entityMustBe) ∧
      EtagError.entityRequired ≠ EtagError.entityMustBe := by
  intro e opts
  have hnull : e = .vNull → etag e opts = .error .entityRequired := by
    intro h
    subst h
    rfl
  have hbad : e ≠ .vNull → validShape e = false → etag e opts = .error .entityMustBe := by
    intro h0 hv
    have hcond : (!isstats e && !isStringEntity e && !isBufferEntity e) = true := by
      cases hA : isstats e <;> cases hB : isStringEntity e <;> cases hC : isBufferEntity e <;>
        simp_all [validShape]
    unfold etag
    rw [if_neg h0, if_pos hcond]
  refine ⟨⟨?_, ?_⟩, hnull, hbad, by decide⟩
  · rintro ⟨err, herr⟩
    by_contra hcon
    push_neg at hcon
    obtain ⟨h0, hv⟩ := hcon
    have hv' : validShape e = true := by
      cases h : validShape e
      · exact absurd h hv
      · rfl
    obtain ⟨body, hb, _⟩ := coreTag_shape e hv'
    rw [etag_ok e opts _ h0 hb] at herr
    simp at herr
  · rintro (h | hv)
    · exact ⟨.entityRequired, hnull h⟩
    · by_cases h0 : e = .vNull
      · exact ⟨.entityRequired, hnull h0⟩
      · exact ⟨.entityMustBe, hbad h0 hv⟩

/-- Witness for C3 at the concrete inputs null and 42. -/
theorem c3_invalid_argument_witness :
    etag .vNull none = .error .entityRequired ∧
    etag (.vNum 42) none = .error .entityMustBe :=
  ⟨(c3_invalid_argument .vNull none).2.1 rfl,
   (c3_invalid_argument (.vNum 42) none).2.2.1 (by decide) (by decide)⟩

/-- C4: when `options.weak` is literally a boolean, the result is weak
exactly per that boolean regardless of entity shape; otherwise (options
absent, or `weak` unset or non-boolean) the result is weak exactly when
the entity is stat-shaped. -/
theorem c4_weak_option_resolution :
    ∀ (e : JsValue) (opts : Option EtagOptions) (tag : String) (b : Bool),
      etag e opts = .ok tag →
      (opts = some ⟨.boolean b⟩ →
        ∃ core, (if isstats e then stattag e else entitytag e) = some core ∧
          tag = (if b then "W/" ++ core else core)) ∧
      ((∀ b' : Bool, opts ≠ some ⟨.boolean b'⟩) →
        ∃ core, (if isstats e then stattag e else entitytag e) = some core ∧
          tag = (if isstats e then "W/" ++ core else core)) := by
  intro e opts tag b h
  obtain ⟨h0, core, hc, htag⟩ := etag_ok_inv e opts tag h
  constructor
  · rintro rfl
    exact ⟨core, hc, by simpa [resolveWeak] using htag⟩
  · intro hno
    refine ⟨core, hc, ?_⟩
    have hws : resolveWeak opts (isstats e) = isstats e := by
      rcases opts with _ | o
      · rfl
      · rcases o with ⟨w⟩
        rcases w with b' | _ | _
        · exact absurd rfl (hno b')
        · rfl
        · rfl
    rw [hws] at htag
    exact htag

/-- Witness for C4 at the empty string with an explicit weak:true. -/
theorem c4_weak_option_resolution_witness :
    ∃ core,
      (if isstats (.vStr "") then stattag (.vStr "") else entitytag (.vStr "")) = some core ∧
      ("W/" ++ emptyTag) = (if true then "W/" ++ core else core) :=
  (c4_weak_option_resolution (.vStr "") (some ⟨.boolean true⟩) ("W/" ++ emptyTag) true rfl).1 rfl

set_option maxRecDepth 20000 in
/-- C5: empty content (empty string or empty buffer) yields the fixed
precomputed constant tag, and that constant equals exactly what the
general content-path formula (`generalContentBody`, modelled from the
spec) produces for zero bytes: hex length `0`, `-`, and the 27-character
truncated base64 SHA-1 digest of the empty byte sequence.  In the code
the fast-path branch returns the literal without touching the hash. -/
theorem c5_empty_fast_path :
    etag (.vStr "") none = .ok emptyTag ∧
    etag (.vBuf []) none = .ok emptyTag ∧
    entitytag (.vStr "") = some emptyTag ∧
    entitytag (.vBuf []) = some emptyTag ∧
    emptyTag = "\"" ++ generalContentBody [] ++ "\"" :=
  ⟨rfl, rfl, rfl, rfl, rfl⟩

set_option maxRecDepth 20000 in
/-- C6: the length prefix of a string tag is the UTF-8 byte count, not
the character count: in general the prefix is
`hex((utf8Bytes s).length)`, and the 1-character string "€" (3 UTF-8
bytes) yields length prefix `3`, not `1`. -/
theorem c6_utf8_byte_length :
    (∀ s : String, utf16Len s ≠ 0 →
      ∃ rest : String,
        etag (.vStr s) none =
          .ok ("\"" ++ natToString16 (utf8Bytes s).length ++ "-" ++ rest)) ∧
    "€".data.length = 1 ∧
    (utf8Bytes "€").length = 3 ∧
    etag (.vStr "€") none = .ok "\"3-g/yGem6nvxyhBa7JobgSNOCuxA4\"" := by
  refine ⟨?_, by decide, by decide, rfl⟩
  intro s h
  refine ⟨sha1Base64Trunc (utf8Bytes s) ++ "\"", ?_⟩
  simp [etag, isstats, isStringEntity, isBufferEntity, entitytag, h, resolveWeak,
        String.append_assoc]

/-- Witness for C6 at the concrete input "€". -/
theorem c6_utf8_byte_length_witness :
    utf16Len "€" ≠ 0 ∧
    ∃ rest : String,
      etag (.vStr "€") none =
        .ok ("\"" ++ natToString16 (utf8Bytes "€").length ++ "-" ++ rest) :=
  ⟨by decide, c6_utf8_byte_length.1 "€" (by decide)⟩

/-- C7: the final tag is the body wrapped in double quotes with `W/`
prepended exactly when weak: the weak:true tag is `W/` followed by the
weak:false tag, the default for non-stat entities equals the weak:false
tag, and the quoted body never contains a double-quote character. -/
theorem c7_weak_wrap_relation :
    ∀ (e : JsValue) (tag : String),
      etag e (some ⟨.boolean false⟩) = .ok tag →
        etag e (some ⟨.boolean true⟩) = .ok ("W/" ++ tag) ∧
        (isstats e = false → etag e none = .ok tag) ∧
        ∃ body, tag = "\"" ++ body ++ "\"" ∧ NoQuote body := by
  intro e tag h
  obtain ⟨h0, core, hc, htag⟩ := etag_ok_inv e (some ⟨.boolean false⟩) tag h
  have htag' : tag = core := by simpa [resolveWeak] using htag
  subst htag'
  refine ⟨?_, ?_, ?_⟩
  · simpa [resolveWeak] using etag_ok e (some ⟨.boolean true⟩) tag h0 hc
  · intro hs
    simpa [resolveWeak, hs] using etag_ok e none tag h0 hc
  · obtain ⟨body, hb, hnq⟩ := coreTag_shape e (validShape_of_some e tag hc)
    exact ⟨body, Option.some.inj (hc.symm.trans hb), hnq⟩

/-- Witness for C7 at the empty string. -/
theorem c7_weak_wrap_relation_witness :
    etag (.vStr "") (some ⟨WeakField.boolean true⟩) = .ok ("W/" ++ emptyTag) ∧
    (isstats (.vStr "") = false → etag (.vStr "") none = .ok emptyTag) ∧
    ∃ body, emptyTag = "\"" ++ body ++ "\"" ∧ NoQuote body :=
  c7_weak_wrap_relation (.vStr "") emptyTag rfl

/-- C8: `etag` is deterministic and referentially transparent: equal
entity and options values give equal tags (the embedding is a pure
function of its two arguments, mirroring the stateless source). -/
theorem c8_deterministic :
    ∀ (e1 e2 : JsValue) (o1 o2 : Option EtagOptions),
      e1 = e2 → o1 = o2 → etag e1 o1 = etag e2 o2 := by
  intro e1 e2 o1 o2 h1 h2
  rw [h1, h2]

/-- Witness for C8 at a concrete input. -/
theorem c8_deterministic_witness :
    etag (.vStr "hello world") none = etag (.vStr "hello world") none :=
  c8_deterministic _ _ _ _ rfl rfl

/-- C9: a string and the buffer holding its UTF-8 encoding are
tag-indistinguishable under any options: the content path hashes the
same bytes and measures the same byte length for both. -/
theorem c9_string_buffer_indistinguishable :
    ∀ (s : String) (opts : Option EtagOptions),
      etag (.vStr s) opts = etag (.vBuf (utf8Bytes s)) opts := by
  intro s opts
  by_cases h : utf16Len s = 0
  · have hb : (utf8Bytes s).length = 0 := (utf8Bytes_length_eq_zero_iff s).mpr h
    simp [etag, isstats, isStringEntity, isBufferEntity, entitytag, h, hb]
  · have hb : ¬(utf8Bytes s).length = 0 := fun hh => h ((utf8Bytes_length_eq_zero_iff s).mp hh)
    simp [etag, isstats, isStringEntity, isBufferEntity, entitytag, h, hb]

/-- C10: the metadata path never throws for any object passing the
shape test: `size` and `mtime` are formatted into the body with no
range or integrality validation, so a descriptor with a negative or
fractional numeric size, or an mtime before the epoch, still yields a
successfully quoted tag carrying the verbatim JS hex rendering of those
values — leading minus sign and fractional hex digits included
(size 2.5 renders `2.8`, mtime -255 renders `-ff`). -/
theorem c10_stat_path_never_throws :
    (∀ (sz ms ino ct : Int) (opts : Option EtagOptions),
      etag (.vObj ⟨some (.date ct), some (.date ms), some (.num ino), some (.num sz)⟩) opts =
        .ok (if resolveWeak opts true then
               "W/" ++ ("\"" ++ intToString16 sz ++ "-" ++ intToString16 ms ++ "\"")
             else "\"" ++ intToString16 sz ++ "-" ++ intToString16 ms ++ "\"")) ∧
    (∀ (m : Int) (e : Nat) (ms ino ct : Int) (opts : Option EtagOptions),
      etag (.vObj ⟨some (.date ct), some (.date ms), some (.num ino), some (.frac m e)⟩) opts =
        .ok (if resolveWeak opts true then
               "W/" ++ ("\"" ++ dyadicToString16 m e ++ "-" ++ intToString16 ms ++ "\"")
             else "\"" ++ dyadicToString16 m e ++ "-" ++ intToString16 ms ++ "\"")) ∧
    dyadicToString16 5 1 = "2.8" ∧
    etag (.vObj ⟨some (.date 0), some (.date 1000), some (.num 0), some (.frac 5 1)⟩) none =
      .ok "W/\"2.8-3e8\"" ∧
    etag (.vObj ⟨some (.date 0), some (.date (-255)), some (.num 0), some (.num (-5))⟩) none =
      .ok "W/\"-5--ff\"" := by
  refine ⟨?_, ?_, rfl, rfl, rfl⟩
  · intro sz ms ino ct opts
    rfl
  · intro m e ms ino ct opts
    rfl

end Etag
